import Mathlib

/-!
Verification development for the Linework data tooling.

This file gives a shallow embedding of the two Python source files
`ai-generators/generate_files_from_xlsx.py` and `generate_sitemaps.py`
(value coercion, sheet parsing, output writing, domain normalization,
file resolution, deduplication, and top-level error behaviour), and
proves or refutes the specification statements about them.

Modelling conventions:
* a raw spreadsheet cell is `Option String`: `none` models a missing/NaN
  cell (`pd.isna(val)`), `some s` models a cell whose Python string
  representation `str(val)` is `s`;
* Python decimal floats parsed from digit strings are modelled as exact
  rationals (no float arithmetic is performed by the code);
* filesystem state at assembly time is an explicit snapshot value;
* string helpers mirror the Python methods used by the code, restricted
  to ASCII case folding and ASCII whitespace.
-/

namespace Linework

/-- Whitespace characters removed by Python `str.strip()` (ASCII subset). -/
def isPySpace (c : Char) : Bool :=
  c = ' ' || c = '\t' || c = '\n' || c = '\r' || c = '\x0b' || c = '\x0c'

/-- Python `str.strip()`. -/
def pyStrip (s : String) : String :=
  String.mk (((s.toList.dropWhile isPySpace).reverse.dropWhile isPySpace).reverse)

/-- ASCII lower-casing of one character, as done by Python `str.lower()`. -/
def pyLowerChar (c : Char) : Char :=
  if 'A' ≤ c && c ≤ 'Z' then Char.ofNat (c.toNat + 32) else c

/-- Python `str.lower()` (ASCII). -/
def pyLower (s : String) : String :=
  String.mk (s.toList.map pyLowerChar)

/-- Does the first list start with the second one? -/
def listStartsWith : List Char → List Char → Bool
  | _, [] => true
  | [], _ :: _ => false
  | c :: cs, p :: ps => c = p && listStartsWith cs ps

/-- Python `str.startswith(pre)`. -/
def pyStartsWith (s pre : String) : Bool :=
  listStartsWith s.toList pre.toList

/-- Does the second list occur as a contiguous run inside the first? -/
def listContainsSub (pat : List Char) : List Char → Bool
  | [] => pat.isEmpty
  | c :: rest => listStartsWith (c :: rest) pat || listContainsSub pat rest

/-- Python `pat in s` substring test. -/
def strContains (s pat : String) : Bool :=
  listContainsSub pat.toList s.toList

/-- Python `str.rstrip("/")`: drop every trailing slash. -/
def rstripSlashes (s : String) : String :=
  String.mk ((s.toList.reverse.dropWhile (· = '/')).reverse)

/-- A raw spreadsheet cell (see the header comment). -/
abbrev Cell := Option String

/-- A Python float parsed from a decimal digit string, kept as its exact
decimal components: the denoted value is `units + frac / 10 ^ fracLen`.
Distinct digit strings denoting the same real number (such as "1.0" and
"1.00") give structurally different values; no verified statement
depends on identifying them, and the dictionary-key unification that
Python performs on numbers is expressed through `ratOfPyFloat` below. -/
structure PyFloat where
  units : Nat
  frac : Nat
  fracLen : Nat
deriving DecidableEq, Repr

/-- The rational number denoted by a parsed float. -/
def ratOfPyFloat (f : PyFloat) : Rat :=
  (f.units : Rat) + (f.frac : Rat) / ((10 : Rat) ^ f.fracLen)

/-- Result type of `clean_value`: Python `None`, `bool`, `int`, `float`
(decimal literals modelled exactly) or `str`. -/
inductive CleanValue where
  | none
  | bool (b : Bool)
  | int (n : Int)
  | float (f : PyFloat)
  | str (s : String)
deriving DecidableEq, Repr

/-- Python `val.replace('.', '', 1)` at character-list level: drop the
first dot, if any. -/
def removeFirstDot : List Char → List Char
  | [] => []
  | c :: cs => if c = '.' then cs else c :: removeFirstDot cs

/-- Is `c` a decimal digit? -/
def isDigitChar (c : Char) : Bool :=
  '0' ≤ c && c ≤ '9'

/-- Python `str.isdigit()` (ASCII): nonempty and all decimal digits. -/
def pyIsDigit (l : List Char) : Bool :=
  !l.isEmpty && l.all isDigitChar

/-- Value of a decimal digit string (most significant digit first). -/
def digitsToNat (l : List Char) : Nat :=
  l.foldl (fun n c => n * 10 + (c.toNat - '0'.toNat)) 0

/-- Python `int(val)` on a digits-only string. -/
def pyInt (s : String) : Int :=
  Int.ofNat (digitsToNat s.toList)

/-- Python `float(val)` on a string of digits with exactly one dot. -/
def pyFloat (s : String) : PyFloat :=
  let l := s.toList
  let ip := l.takeWhile (· ≠ '.')
  let fp := (l.dropWhile (· ≠ '.')).drop 1
  ⟨digitsToNat ip, digitsToNat fp, fp.length⟩

/-- The null sentinels of `clean_value` (compared case-insensitively). -/
def sentinelStrings : List String := ["not specified", "n/a", "", "none"]

/-- Function `clean_value` from generate_files_from_xlsx.py (lines 69-84): trim,
null out sentinels, then try numeric, then boolean, else keep the
trimmed string.  The Python function receives no field name and has no
per-field special case. -/
def clean_value (val : Cell) : CleanValue :=
  match val with
  | Option.none => CleanValue.none
  | Option.some raw =>
    let v := pyStrip raw
    if pyLower v ∈ sentinelStrings then CleanValue.none
    else if pyIsDigit (removeFirstDot v.toList) = true then
      (if v.toList.contains '.' then CleanValue.float (pyFloat v)
       else CleanValue.int (pyInt v))
    else if pyLower v ∈ (["true", "yes"] : List String) then CleanValue.bool true
    else if pyLower v ∈ (["false", "no"] : List String) then CleanValue.bool false
    else CleanValue.str v

/-! ## Sheet parsing (`parse_sheet_to_dict_or_list`, lines 86-116) -/

/-- A Python dict with string keys, as an insertion-ordered association
list with pairwise distinct keys (built only through `recInsert`). -/
abbrev RecordL := List (String × CleanValue)

/-- Dict assignment `record[header] = val` on a string-keyed dict: update the existing
entry in place if the key is present, else append at the end. -/
def recInsert : RecordL → String → CleanValue → RecordL
  | [], k, v => [(k, v)]
  | (k1, v1) :: r, k, v =>
    if k1 = k then (k1, v) :: r else (k1, v1) :: recInsert r k v

/-- First value stored under a key, if any. -/
def recLookup (k : String) : RecordL → Option CleanValue
  | [] => Option.none
  | (k1, v1) :: r => if k1 = k then some v1 else recLookup k r

/-- Header cell of a list-mode sheet:
`str(x).strip() if pd.notna(x) else ""` (line 92). -/
def headerName (c : Cell) : String :=
  match c with
  | Option.none => ""
  | Option.some s => pyStrip s

/-- Processing of one (header, cell) pair (lines 99-101): coerce the
cell and assign it under the header only when the coercion is
non-null. -/
def recStep (record : RecordL) (hc : String × Cell) : RecordL :=
  match clean_value hc.2 with
  | CleanValue.none => record
  | v => recInsert record hc.1 v

/-- One data row of a list-mode sheet (lines 96-101).  The Python loop
`for i, header in enumerate(headers): if i < len(row): ...` visits
exactly the aligned (header, cell) pairs, i.e. `headers.zip row`. -/
def buildRecord (headers : List String) (row : List Cell) : RecordL :=
  (headers.zip row).foldl recStep []

/-- Accumulation of one row into the records list (lines 102-103):
`if record: records.append(record)`. -/
def listStep (f : List Cell → RecordL) (records : List RecordL) (row : List Cell) :
    List RecordL :=
  if (f row).isEmpty then records else records ++ [f row]

/-- List-mode branch of `parse_sheet_to_dict_or_list` (lines 88-104):
row 0 is the header row, every later row yields a candidate record, and
a record with no assigned field is dropped. -/
def parse_sheet_list (g : List (List Cell)) : List RecordL :=
  match g with
  | [] => []
  | headRow :: rest =>
    rest.foldl (listStep (buildRecord (headRow.map headerName))) []

/-- Canonical dictionary key of a `clean_value` result.  Python dict
keys compare by `==`/`hash`, which identifies `True`, `1` and `1.0`;
numbers and booleans are therefore sent to their rational value, and
strings to a separate component. -/
def pyKey : CleanValue → (Rat ⊕ String) ⊕ Unit
  | CleanValue.bool b => Sum.inl (Sum.inl (if b then 1 else 0))
  | CleanValue.int n => Sum.inl (Sum.inl (n : Rat))
  | CleanValue.float f => Sum.inl (Sum.inl (ratOfPyFloat f))
  | CleanValue.str s => Sum.inl (Sum.inr s)
  | CleanValue.none => Sum.inr ()

/-- A Python dict whose keys are coerced cell values (key/value mode
stores `data[clean_value(col0)] = clean_value(col1)`). -/
abbrev KVRecord := List (CleanValue × CleanValue)

/-- Dict assignment `data[key] = value` on a coerced-key dict.  On an update Python
keeps the originally stored key object and its position, and only
replaces the value. -/
def kvInsert : KVRecord → CleanValue → CleanValue → KVRecord
  | [], k, v => [(k, v)]
  | (k1, v1) :: r, k, v =>
    if pyKey k1 = pyKey k then (k1, v) :: r else (k1, v1) :: kvInsert r k v

/-- First value stored under a key equal (in the dict sense) to `k`. -/
def kvLookup (k : CleanValue) : KVRecord → Option CleanValue
  | [] => Option.none
  | (k1, v1) :: r => if pyKey k1 = pyKey k then some v1 else kvLookup k r

/-- Python truthiness of a `clean_value` result (the `if not key` test
on line 112): null, `False`, `0`, `0.0` and the empty string are falsy. -/
def truthy : CleanValue → Bool
  | CleanValue.none => false
  | CleanValue.bool b => b
  | CleanValue.int n => if n = 0 then false else true
  | CleanValue.float f => if f.units = 0 ∧ f.frac = 0 then false else true
  | CleanValue.str s => !s.isEmpty

/-- One row of a key/value sheet (lines 108-115): rows with fewer than
two cells are skipped, the key is the full coercion of column 0, rows
with a falsy coerced key are skipped, and column 1 is coerced and
stored under the key. -/
def kvStep (data : KVRecord) (row : List Cell) : KVRecord :=
  if row.length < 2 then data
  else
    let key := clean_value (row.getD 0 Option.none)
    if truthy key = false then data
    else kvInsert data key (clean_value (row.getD 1 Option.none))

/-- Key/value branch of `parse_sheet_to_dict_or_list` (lines 105-116). -/
def parse_sheet_kv (g : List (List Cell)) : KVRecord :=
  g.foldl kvStep []

/-! ## Output writing and top-level control flow -/

/-- The two serialization formats written for each sheet. -/
inductive WFmt where
  | json
  | yaml
deriving DecidableEq, Repr

/-- Observable outcome of `write_json_yaml`: which formats had a write
attempted, and the returned success flag. -/
structure WriteOutcome where
  attempted : List WFmt
  ok : Bool
deriving DecidableEq, Repr

/-- Function `write_json_yaml` (generate_files_from_xlsx.py, lines 118-143) over
abstract per-format write outcomes: `jsonOk` / `yamlOk` say whether the
corresponding `open`/`dump` block raises.  The function first tries the
JSON write and on failure returns `False` at once, so the YAML write is
attempted only when the JSON write succeeded; it returns `True` exactly
when both writes succeeded. -/
def write_json_yaml (jsonOk yamlOk : Bool) : WriteOutcome :=
  if jsonOk = false then ⟨[WFmt.json], false⟩
  else if yamlOk = false then ⟨[WFmt.json, WFmt.yaml], false⟩
  else ⟨[WFmt.json, WFmt.yaml], true⟩

/-- The three unhandled top-level errors of generate_sitemaps.py `main`
(lines 81-92): missing workbook, unreadable workbook, missing domain
column. -/
inductive TopErr where
  | missingWorkbook
  | readFailed
  | missingDomainCol
deriving DecidableEq, Repr

/-- Abstract run environment of generate_sitemaps.py: which of the
top-level preconditions hold, the report lines row processing would
produce when none fails, and the text `traceback.format_exc()` yields. -/
structure SitemapEnv where
  workbookExists : Bool
  readOk : Bool
  hasDomainCol : Bool
  rowLines : List String
  traceText : String

/-- The first unhandled top-level error an environment triggers, in the
order the code raises them. -/
def topError (e : SitemapEnv) : Option TopErr :=
  if e.workbookExists = false then some TopErr.missingWorkbook
  else if e.readOk = false then some TopErr.readFailed
  else if e.hasDomainCol = false then some TopErr.missingDomainCol
  else Option.none

/-- Diagnostic text of each top-level error (message texts abbreviated;
no verified statement depends on their exact wording). -/
def errText : TopErr → String
  | TopErr.missingWorkbook => "Missing client-data.xlsx at repo root."
  | TopErr.readFailed => "Failed to read Excel (client-data.xlsx)."
  | TopErr.missingDomainCol => "Cannot find a domain column."

/-- Observable outcome of one run of generate_sitemaps.py `main`. -/
structure MainResult where
  report : List String
  reportWritten : Bool
  exitCode : Nat
deriving DecidableEq, Repr

/-- Function `main` of generate_sitemaps.py (lines 78-190).  All three top-level
errors are raised before any row is processed, so in the except branch
the report holds exactly the `ERROR:` line and the `TRACEBACK:` line
(lines 180-181); the report file is written unconditionally after the
try/except (line 186).  `main` ends without a return statement, hence
returns `None`, and `sys.exit(main())` on line 190 therefore exits with
status 0 on every run, including failed ones. -/
def sitemapMain (e : SitemapEnv) : MainResult :=
  match topError e with
  | some err =>
      ⟨["ERROR: " ++ errText err, "TRACEBACK:\n" ++ e.traceText], true, 0⟩
  | Option.none =>
      ⟨e.rowLines ++ ["Done."], true, 0⟩

/-- Abstract run environment of generate_files_from_xlsx.py `main`:
whether the `--input` file exists and whether `pd.ExcelFile` succeeds. -/
structure XlsxEnv where
  inputExists : Bool
  loadOk : Bool
deriving DecidableEq, Repr

/-- Exit status of `main` in generate_files_from_xlsx.py: `exit(1)` when
the input file is missing (line 153) or unreadable (line 163), normal
termination (status 0) otherwise. -/
def generateFilesExit (e : XlsxEnv) : Nat :=
  if e.inputExists = false then 1
  else if e.loadOk = false then 1
  else 0

/-! ## Sitemap assembler (generate_sitemaps.py) -/

/-- Function `ensure_scheme` (lines 53-59): trim, return the empty string as is,
else add `https://` when no scheme is present and drop every trailing
slash. -/
def ensure_scheme (url : String) : String :=
  let u := pyStrip url
  if u.isEmpty = true then u
  else
    rstripSlashes
      (if pyStartsWith u "http://" || pyStartsWith u "https://" then u
       else "https://" ++ u)

/-- The placeholder fragments rejected by `is_placeholder_domain`. -/
def placeholderSubstrings : List String :=
  ["example.com", "yourdomain.com", "your-domain.com"]

/-- Function `is_placeholder_domain` (lines 61-63): substring test against the
lower-cased domain. -/
def is_placeholder_domain (domain : String) : Bool :=
  placeholderSubstrings.any (fun p => strContains (pyLower domain) p)

/-- Per-row outcome of the domain checks. -/
inductive DomainOutcome where
  | skippedEmpty
  | rejectedPlaceholder (domain : String)
  | ok (domain : String)
deriving DecidableEq, Repr

/-- Domain handling of one client row (lines 102-110): trim, skip empty
or stringified-NaN domains, normalize with `ensure_scheme`, reject
placeholder domains, else accept. -/
def domainStep (raw : String) : DomainOutcome :=
  let rawDom := pyStrip raw
  if rawDom.isEmpty = true ∨ pyLower rawDom = "nan" then DomainOutcome.skippedEmpty
  else
    let domain := ensure_scheme rawDom
    if is_placeholder_domain domain = true then DomainOutcome.rejectedPlaceholder domain
    else DomainOutcome.ok domain

/-- One regular file of the filesystem snapshot: normalized posix path
and size in bytes. -/
structure FSFile where
  path : String
  size : Nat
deriving DecidableEq, Repr

/-- Filesystem snapshot at assembly time.  Paths are modelled as
already-normalized posix strings, so `Path` construction and
`as_posix()` are the identity on them. -/
structure FS where
  files : List FSFile
  dirs : List String
deriving Repr

/-- Test `p.is_file()`. -/
def FS.isFile (fs : FS) (p : String) : Bool :=
  fs.files.any (fun f => f.path = p)

/-- Size `p.stat().st_size` for files of the snapshot, 0 otherwise. -/
def FS.fileSize (fs : FS) (p : String) : Nat :=
  match fs.files.find? (fun f => f.path = p) with
  | some f => f.size
  | Option.none => 0

/-- Test `p.exists()`: a regular file or a directory. -/
def FS.pathExists (fs : FS) (p : String) : Bool :=
  fs.isFile p || fs.dirs.contains p

/-- Function `file_is_nonempty` (lines 65-69): exists, is a regular file, and
has strictly positive size. -/
def file_is_nonempty (fs : FS) (p : String) : Bool :=
  fs.pathExists p && fs.isFile p && decide (0 < fs.fileSize p)

/-- Component `Path(s).name`: the final path component. -/
def pathName (s : String) : String :=
  String.mk ((s.toList.reverse.takeWhile (· ≠ '/')).reverse)

/-- Extension `Path(s).suffix`: the extension of the final component, dot
included; empty when the name has no dot, ends with its only dot, or
starts with its only dot. -/
def pathSuffix (s : String) : String :=
  let l := (pathName s).toList
  let after := l.reverse.takeWhile (· ≠ '.')
  if after.length = l.length then ""
  else if after.length = 0 then ""
  else if after.length + 1 = l.length then ""
  else String.mk ('.' :: after.reverse)

/-- Constant `VALID_EXTS` (line 34). -/
def VALID_EXTS : List String := [".json", ".yaml", ".yml"]

/-- Constant `DEFAULT_FOLDERS` (line 33). -/
def DEFAULT_FOLDERS : List String := ["locations", "products", "team"]

/-- Test `"/" in item or "\\" in item`. -/
def hasSep (item : String) : Bool :=
  strContains item "/" || strContains item "\\"

/-- Candidate resolution for one listed item (lines 131-146): an
existing regular file is taken as is; otherwise a bare filename with a
known extension and no path separator is looked up under each default
folder; finally every candidate must pass the extension check and
`file_is_nonempty`. -/
def resolveItem (fs : FS) (item : String) : List String :=
  let cand : List String :=
    if fs.pathExists item && fs.isFile item then [item]
    else if !(pathName item).isEmpty
        && VALID_EXTS.contains (pyLower (pathSuffix item))
        && !hasSep item then
      DEFAULT_FOLDERS.filterMap (fun folder =>
        let maybe := folder ++ "/" ++ pathName item
        if file_is_nonempty fs maybe = true then some maybe else Option.none)
    else []
  cand.filter (fun c =>
    VALID_EXTS.contains (pyLower (pathSuffix c)) && file_is_nonempty fs c)

/-- The `existing` list built over all items of a row (lines 130-146). -/
def resolveExisting (fs : FS) (paths : List String) : List String :=
  paths.foldl (fun existing item => existing ++ resolveItem fs item) []

/-- The `seen`/`uniq` loop of lines 149-154. -/
def dedupLoop : List String → List String → List String → List String
  | _, uniq, [] => uniq
  | seen, uniq, p :: rest =>
    if p ∈ seen then dedupLoop seen uniq rest
    else dedupLoop (p :: seen) (uniq ++ [p]) rest

/-- Deduplicate resolved paths, keeping the first occurrence of each
(paths are modelled as already-normalized posix strings, so the
`as_posix()` dedup key is the path itself). -/
def dedupPaths (l : List String) : List String :=
  dedupLoop [] [] l

/-- The sitemap entries written for one client row: resolved existing
non-empty files, deduplicated (lines 156-168 write exactly one `<url>`
entry per element of `uniq`). -/
def rowEntries (fs : FS) (paths : List String) : List String :=
  dedupPaths (resolveExisting fs paths)

/-- Reference recursion for `dedupLoop`, used to reason about it. -/
def dedupAux : List String → List String → List String
  | _, [] => []
  | seen, p :: rest =>
    if p ∈ seen then dedupAux seen rest
    else p :: dedupAux (p :: seen) rest

def fsStore : FS := ⟨[⟨"locations/store.json", 5⟩], ["locations"]⟩

example : ensure_scheme "acme.io" = "https://acme.io" := by decide
example : ensure_scheme "https://acme.io///" = "https://acme.io" := by decide
example : domainStep "www.example.com/path" =
    DomainOutcome.rejectedPlaceholder "https://www.example.com/path" := by decide
example : domainStep "acme.io" = DomainOutcome.ok "https://acme.io" := by decide
example : domainStep "   " = DomainOutcome.skippedEmpty := by decide
example : pathSuffix "store.json" = ".json" := by decide
example : pathSuffix ".json" = "" := by decide
example : pathSuffix "a/b.yml" = ".yml" := by decide
example : rowEntries fsStore ["store.json"] = ["locations/store.json"] := by decide
example : rowEntries fsStore ["store.json", "store.json"] = ["locations/store.json"] := by decide
example : rowEntries ⟨[⟨"locations/store.json", 0⟩], ["locations"]⟩ ["store.json"] = [] := by decide
example : dedupPaths ["a", "b", "a"] = ["a", "b"] := by decide

/-! ## Helper lemmas: characters and strings -/

theorem toList_append (a b : String) : (a ++ b).toList = a.toList ++ b.toList := by
  cases a
  cases b
  rfl

theorem pyLower_toList (s : String) : (pyLower s).toList = s.toList.map pyLowerChar := rfl

theorem pyLowerChar_eq_self (c : Char) (h : isDigitChar c = true ∨ c = '.') :
    pyLowerChar c = c := by
  rcases h with h | h
  · have h9 : c ≤ '9' := by
      simp [isDigitChar] at h
      exact h.2
    have hA : ¬ ('A' ≤ c) := not_le.mpr (lt_of_le_of_lt h9 (by decide))
    simp [pyLowerChar, hA]
  · subst h
    decide

theorem map_pyLowerChar_eq_self (l : List Char)
    (h : ∀ c ∈ l, isDigitChar c = true ∨ c = '.') : l.map pyLowerChar = l := by
  induction l with
  | nil => rfl
  | cons c cs ih =>
    have hc := pyLowerChar_eq_self c (h c (by simp))
    have hcs := ih (fun x hx => h x (by simp [hx]))
    simp [hc, hcs]

theorem pyLower_ne (v t : String)
    (hv : ∀ c ∈ v.toList, isDigitChar c = true ∨ c = '.')
    (c0 : Char) (hc0 : c0 ∈ t.toList) (h1 : isDigitChar c0 = false) (h2 : c0 ≠ '.') :
    pyLower v ≠ t := by
  intro he
  have ht : t.toList = v.toList := by
    rw [← he, pyLower_toList, map_pyLowerChar_eq_self v.toList hv]
  rw [ht] at hc0
  rcases hv c0 hc0 with h | h
  · rw [h] at h1
    cases h1
  · exact h2 h

theorem toList_eq_nil_of_pyLower (v : String) (h : pyLower v = "") : v.toList = [] := by
  have h2 : v.toList.map pyLowerChar = [] := by
    rw [← pyLower_toList, h]
    rfl
  exact List.map_eq_nil_iff.mp h2

theorem notMem_sentinels (v : String)
    (hv : ∀ c ∈ v.toList, isDigitChar c = true ∨ c = '.')
    (hne : v.toList ≠ []) : pyLower v ∉ sentinelStrings := by
  intro hmem
  simp only [sentinelStrings, List.mem_cons, List.not_mem_nil, or_false] at hmem
  rcases hmem with h | h | h | h
  · exact pyLower_ne v "not specified" hv 'n' (by decide) (by decide) (by decide) h
  · exact pyLower_ne v "n/a" hv 'n' (by decide) (by decide) (by decide) h
  · exact hne (toList_eq_nil_of_pyLower v h)
  · exact pyLower_ne v "none" hv 'n' (by decide) (by decide) (by decide) h

theorem notMem_trueStrings (v : String)
    (hv : ∀ c ∈ v.toList, isDigitChar c = true ∨ c = '.') :
    pyLower v ∉ (["true", "yes"] : List String) := by
  intro hmem
  simp only [List.mem_cons, List.not_mem_nil, or_false] at hmem
  rcases hmem with h | h
  · exact pyLower_ne v "true" hv 't' (by decide) (by decide) (by decide) h
  · exact pyLower_ne v "yes" hv 'y' (by decide) (by decide) (by decide) h

theorem notMem_falseStrings (v : String)
    (hv : ∀ c ∈ v.toList, isDigitChar c = true ∨ c = '.') :
    pyLower v ∉ (["false", "no"] : List String) := by
  intro hmem
  simp only [List.mem_cons, List.not_mem_nil, or_false] at hmem
  rcases hmem with h | h
  · exact pyLower_ne v "false" hv 'f' (by decide) (by decide) (by decide) h
  · exact pyLower_ne v "no" hv 'n' (by decide) (by decide) (by decide) h

/-! ## Helper lemmas: the numeric test of `clean_value` -/

theorem mem_removeFirstDot (l : List Char) (c : Char) (h : c ∈ l) :
    c = '.' ∨ c ∈ removeFirstDot l := by
  induction l with
  | nil => cases h
  | cons x xs ih =>
    by_cases hx : x = '.'
    · subst hx
      rcases List.mem_cons.mp h with h1 | h1
      · exact Or.inl h1
      · right
        simpa [removeFirstDot] using h1
    · rcases List.mem_cons.mp h with h1 | h1
      · right
        simp [removeFirstDot, hx, h1]
      · rcases ih h1 with h2 | h2
        · exact Or.inl h2
        · right
          simp [removeFirstDot, hx, h2]

theorem count_le_removeFirstDot (l : List Char) :
    l.count '.' ≤ (removeFirstDot l).count '.' + 1 := by
  induction l with
  | nil => simp [removeFirstDot]
  | cons x xs ih =>
    by_cases hx : x = '.'
    · subst hx
      simp [removeFirstDot, List.count_cons]
    · simp only [removeFirstDot, hx, if_false, List.count_cons]
      simpa [hx] using ih

theorem chars_digit_dot_of_pyIsDigit (v : List Char)
    (h : pyIsDigit (removeFirstDot v) = true) :
    ∀ c ∈ v, isDigitChar c = true ∨ c = '.' := by
  intro c hc
  rcases mem_removeFirstDot v c hc with h1 | h1
  · exact Or.inr h1
  · left
    have hall : ∀ x ∈ removeFirstDot v, isDigitChar x = true := by
      simp only [pyIsDigit, Bool.and_eq_true, List.all_eq_true] at h
      exact h.2
    exact hall c h1

theorem ne_nil_of_pyIsDigit (v : List Char)
    (h : pyIsDigit (removeFirstDot v) = true) : v ≠ [] := by
  intro h0
  subst h0
  simp [pyIsDigit, removeFirstDot] at h

theorem clean_value_of_sentinel (s : String)
    (h : pyLower (pyStrip s) ∈ sentinelStrings) :
    clean_value (some s) = CleanValue.none := by
  simp [clean_value, h]

theorem clean_value_of_numeric (s : String)
    (h : pyIsDigit (removeFirstDot (pyStrip s).toList) = true) :
    clean_value (some s) =
      (if (pyStrip s).toList.contains '.' then CleanValue.float (pyFloat (pyStrip s))
       else CleanValue.int (pyInt (pyStrip s))) := by
  have hv := chars_digit_dot_of_pyIsDigit (pyStrip s).toList h
  have hne := ne_nil_of_pyIsDigit (pyStrip s).toList h
  have hs := notMem_sentinels (pyStrip s) hv hne
  have hd : pyIsDigit (removeFirstDot (pyStrip s).data) = true := h
  simp [clean_value, hs, hd]

theorem clean_value_fallthrough (s : String)
    (h1 : pyLower (pyStrip s) ∉ sentinelStrings)
    (h2 : pyIsDigit (removeFirstDot (pyStrip s).toList) = false)
    (h3 : pyLower (pyStrip s) ∉ (["true", "yes"] : List String))
    (h4 : pyLower (pyStrip s) ∉ (["false", "no"] : List String)) :
    clean_value (some s) = CleanValue.str (pyStrip s) := by
  have hd : pyIsDigit (removeFirstDot (pyStrip s).data) = false := h2
  simp [clean_value, h1, hd, h3, h4]

theorem clean_value_of_multidot (s : String)
    (hv : ∀ c ∈ (pyStrip s).toList, isDigitChar c = true ∨ c = '.')
    (hc : 2 ≤ (pyStrip s).toList.count '.') :
    clean_value (some s) = CleanValue.str (pyStrip s) := by
  have hne : (pyStrip s).toList ≠ [] := by
    intro h0
    rw [h0] at hc
    simp at hc
  have hdot : '.' ∈ removeFirstDot (pyStrip s).toList := by
    have h1 := count_le_removeFirstDot (pyStrip s).toList
    exact List.count_pos_iff.mp (by omega)
  have h2 : pyIsDigit (removeFirstDot (pyStrip s).toList) = false := by
    cases hall : (removeFirstDot (pyStrip s).toList).all isDigitChar with
    | false =>
      unfold pyIsDigit
      rw [hall]
      simp
    | true =>
      exfalso
      have := List.all_eq_true.mp hall '.' hdot
      simp [isDigitChar] at this
  exact clean_value_fallthrough s (notMem_sentinels (pyStrip s) hv hne) h2
    (notMem_trueStrings (pyStrip s) hv) (notMem_falseStrings (pyStrip s) hv)

/-! ## Helper lemmas: records and list-mode parsing -/

theorem recLookup_recInsert (r : RecordL) (k : String) (v : CleanValue) (n : String) :
    recLookup n (recInsert r k v) = if k = n then some v else recLookup n r := by
  induction r with
  | nil => simp [recInsert, recLookup]
  | cons hd tl ih =>
    obtain ⟨k1, v1⟩ := hd
    by_cases h1 : k1 = k
    · subst h1
      by_cases h2 : k1 = n <;> simp [recInsert, recLookup, h2]
    · by_cases h2 : k = n
      · subst h2
        simp [recInsert, recLookup, h1, ih]
      · by_cases h3 : k1 = n
        · subst h3
          simp [recInsert, recLookup, h1, h2, ih]
        · simp [recInsert, recLookup, h1, h2, h3, ih]

theorem mem_recInsert (r : RecordL) (k : String) (v : CleanValue)
    (x : String × CleanValue) (h : x ∈ recInsert r k v) : x ∈ r ∨ x = (k, v) := by
  induction r with
  | nil =>
    simp [recInsert] at h
    exact Or.inr h
  | cons hd tl ih =>
    obtain ⟨k1, v1⟩ := hd
    by_cases h1 : k1 = k
    · subst h1
      simp [recInsert] at h
      rcases h with h | h
      · exact Or.inr (by simp [h])
      · exact Or.inl (by simp [h])
    · simp [recInsert, h1] at h
      rcases h with h | h
      · exact Or.inl (by simp [h])
      · rcases ih h with h2 | h2
        · exact Or.inl (by simp [h2])
        · exact Or.inr h2

theorem recStep_eq (record : RecordL) (hc : String × Cell) :
    recStep record hc =
      if clean_value hc.2 = CleanValue.none then record
      else recInsert record hc.1 (clean_value hc.2) := by
  cases h : clean_value hc.2 <;> simp [recStep, h]

/-- The rightmost non-null assignment a list of aligned (header, cell)
pairs makes under a given header name. -/
def lastNonNull (n : String) : List (String × Cell) → Option CleanValue
  | [] => Option.none
  | hc :: rest =>
    (lastNonNull n rest).or
      (if hc.1 = n ∧ clean_value hc.2 ≠ CleanValue.none then some (clean_value hc.2)
       else Option.none)

theorem recLookup_foldl_recStep (l : List (String × Cell)) :
    ∀ (acc : RecordL) (n : String),
      recLookup n (l.foldl recStep acc) = (lastNonNull n l).or (recLookup n acc) := by
  induction l with
  | nil =>
    intro acc n
    simp [lastNonNull, Option.or]
  | cons hc rest ih =>
    intro acc n
    rw [List.foldl_cons, ih (recStep acc hc) n, lastNonNull, Option.or_assoc]
    congr 1
    rw [recStep_eq]
    by_cases hn : clean_value hc.2 = CleanValue.none
    · simp [hn, Option.or]
    · by_cases hh : hc.1 = n
      · simp [hn, hh, recLookup_recInsert, Option.or]
      · simp [hn, hh, recLookup_recInsert, Option.or]

theorem recLookup_buildRecord (headers : List String) (row : List Cell) (n : String) :
    recLookup n (buildRecord headers row) = lastNonNull n (headers.zip row) := by
  rw [buildRecord, recLookup_foldl_recStep]
  cases h : lastNonNull n (headers.zip row) <;> simp [h, Option.or, recLookup]

theorem snd_ne_none_of_mem_foldl (l : List (String × Cell)) :
    ∀ (acc : RecordL) (x : String × CleanValue),
      (∀ y ∈ acc, y.2 ≠ CleanValue.none) → x ∈ l.foldl recStep acc →
      x.2 ≠ CleanValue.none := by
  induction l with
  | nil =>
    intro acc x hacc hx
    exact hacc x hx
  | cons hc rest ih =>
    intro acc x hacc hx
    refine ih (recStep acc hc) x ?_ hx
    intro y hy
    rw [recStep_eq] at hy
    by_cases hn : clean_value hc.2 = CleanValue.none
    · rw [if_pos hn] at hy
      exact hacc y hy
    · rw [if_neg hn] at hy
      rcases mem_recInsert _ _ _ _ hy with h | h
      · exact hacc y h
      · rw [h]
        exact hn

theorem mem_buildRecord_ne_none (headers : List String) (row : List Cell)
    (x : String × CleanValue) (h : x ∈ buildRecord headers row) :
    x.2 ≠ CleanValue.none :=
  snd_ne_none_of_mem_foldl (headers.zip row) [] x (by simp) h

theorem foldl_listStep (f : List Cell → RecordL) (l : List (List Cell)) :
    ∀ acc : List RecordL,
      l.foldl (listStep f) acc = acc ++ (l.map f).filter (fun r => !r.isEmpty) := by
  induction l with
  | nil =>
    intro acc
    simp
  | cons row rest ih =>
    intro acc
    rw [List.foldl_cons]
    by_cases h : (f row).isEmpty
    · simp [listStep, h, ih]
    · simp [listStep, h, ih]

theorem parse_sheet_list_eq (headRow : List Cell) (rest : List (List Cell)) :
    parse_sheet_list (headRow :: rest) =
      (rest.map (buildRecord (headRow.map headerName))).filter (fun r => !r.isEmpty) := by
  rw [parse_sheet_list, foldl_listStep]
  simp

/-! ## Helper lemmas: key/value parsing -/

theorem kvLookup_kvInsert (r : KVRecord) (k v n : CleanValue) :
    kvLookup n (kvInsert r k v) =
      if pyKey k = pyKey n then some v else kvLookup n r := by
  induction r with
  | nil => simp [kvInsert, kvLookup]
  | cons hd tl ih =>
    obtain ⟨k1, v1⟩ := hd
    by_cases h1 : pyKey k1 = pyKey k
    · by_cases h2 : pyKey k = pyKey n
      · simp [kvInsert, kvLookup, h1, h2, h1.trans h2]
      · have h3 : ¬ pyKey k1 = pyKey n := fun hx => h2 (h1.symm.trans hx)
        simp [kvInsert, kvLookup, h1, h2, h3]
    · by_cases h2 : pyKey k = pyKey n
      · have h3 : ¬ pyKey k1 = pyKey n := fun hx => h1 (hx.trans h2.symm)
        simp [kvInsert, kvLookup, h1, h2, h3, ih]
      · by_cases h3 : pyKey k1 = pyKey n
        · have h1n : ¬ pyKey n = pyKey k := fun hx => h1 (h3.trans hx)
          simp [kvInsert, kvLookup, h1, h2, h3, h1n, ih]
        · simp [kvInsert, kvLookup, h1, h2, h3, ih]

theorem parse_sheet_kv_append (g : List (List Cell)) (row : List Cell) :
    parse_sheet_kv (g ++ [row]) = kvStep (parse_sheet_kv g) row := by
  simp [parse_sheet_kv, List.foldl_append]

/-! ## Helper lemmas: deduplication -/

theorem dedupLoop_eq (l : List String) :
    ∀ seen uniq, dedupLoop seen uniq l = uniq ++ dedupAux seen l := by
  induction l with
  | nil =>
    intro seen uniq
    simp [dedupLoop, dedupAux]
  | cons p rest ih =>
    intro seen uniq
    by_cases h : p ∈ seen
    · simp [dedupLoop, dedupAux, h, ih]
    · simp [dedupLoop, dedupAux, h, ih]

theorem dedupPaths_eq (l : List String) : dedupPaths l = dedupAux [] l := by
  simp [dedupPaths, dedupLoop_eq]

theorem dedupAux_sublist (l : List String) :
    ∀ seen, List.Sublist (dedupAux seen l) l := by
  induction l with
  | nil =>
    intro seen
    simp [dedupAux]
  | cons p rest ih =>
    intro seen
    by_cases h : p ∈ seen
    · simpa [dedupAux, h] using List.Sublist.cons p (ih seen)
    · simpa [dedupAux, h] using List.Sublist.cons₂ p (ih (p :: seen))

theorem mem_dedupAux (l : List String) :
    ∀ seen p, p ∈ l → p ∉ seen → p ∈ dedupAux seen l := by
  induction l with
  | nil =>
    intro seen p h
    cases h
  | cons q rest ih =>
    intro seen p hp hseen
    by_cases hq : q ∈ seen
    · have hpq : p ≠ q := fun h => hseen (h ▸ hq)
      rcases List.mem_cons.mp hp with h | h
      · exact absurd h hpq
      · simpa [dedupAux, hq] using ih seen p h hseen
    · rcases List.mem_cons.mp hp with h | h
      · simp [dedupAux, hq, h]
      · by_cases hpq : p = q
        · simp [dedupAux, hq, hpq]
        · have hps : p ∉ q :: seen := by simp [hpq, hseen]
          have := ih (q :: seen) p h hps
          simp [dedupAux, hq, this]

theorem dedupAux_nodup_aux (l : List String) :
    ∀ seen, (dedupAux seen l).Nodup ∧ ∀ p ∈ dedupAux seen l, p ∉ seen := by
  induction l with
  | nil =>
    intro seen
    simp [dedupAux]
  | cons q rest ih =>
    intro seen
    by_cases hq : q ∈ seen
    · simpa [dedupAux, hq] using ih seen
    · have ihq := ih (q :: seen)
      have hd : dedupAux seen (q :: rest) = q :: dedupAux (q :: seen) rest := by
        simp [dedupAux, hq]
      constructor
      · rw [hd, List.nodup_cons]
        constructor
        · intro hmem
          exact (ihq.2 q hmem) (by simp)
        · exact ihq.1
      · intro p hp
        rw [hd, List.mem_cons] at hp
        rcases hp with h | h
        · subst h
          exact hq
        · intro hx
          exact (ihq.2 p h) (by simp [hx])

theorem dedupPaths_nodup (l : List String) : (dedupPaths l).Nodup := by
  rw [dedupPaths_eq]
  exact (dedupAux_nodup_aux l []).1

theorem mem_dedupPaths (l : List String) (p : String) (h : p ∈ l) : p ∈ dedupPaths l := by
  rw [dedupPaths_eq]
  exact mem_dedupAux l [] p h (by simp)

theorem dedupPaths_sublist (l : List String) : List.Sublist (dedupPaths l) l := by
  rw [dedupPaths_eq]
  exact dedupAux_sublist l []

/-! ## Helper lemmas: file resolution -/

theorem resolveExisting_eq (fs : FS) (paths : List String) :
    resolveExisting fs paths = (paths.map (resolveItem fs)).flatten := by
  suffices h : ∀ acc,
      paths.foldl (fun existing item => existing ++ resolveItem fs item) acc
        = acc ++ (paths.map (resolveItem fs)).flatten by
    simpa [resolveExisting] using h []
  induction paths with
  | nil =>
    intro acc
    simp
  | cons q rest ih =>
    intro acc
    simp [ih]

theorem file_props_of_mem_resolveItem (fs : FS) (item p : String)
    (h : p ∈ resolveItem fs item) :
    fs.pathExists p = true ∧ fs.isFile p = true ∧ 0 < fs.fileSize p := by
  simp only [resolveItem] at h
  have h2 := (List.mem_filter.mp h).2
  simp only [Bool.and_eq_true, file_is_nonempty, decide_eq_true_eq] at h2
  exact ⟨h2.2.1.1, h2.2.1.2, h2.2.2⟩

theorem file_props_of_mem_rowEntries (fs : FS) (paths : List String) (p : String)
    (h : p ∈ rowEntries fs paths) :
    fs.pathExists p = true ∧ fs.isFile p = true ∧ 0 < fs.fileSize p := by
  have h1 : p ∈ resolveExisting fs paths := (dedupPaths_sublist _).subset h
  rw [resolveExisting_eq] at h1
  rcases List.mem_flatten.mp h1 with ⟨chunk, hchunk, hp⟩
  rcases List.mem_map.mp hchunk with ⟨item, _, hitem⟩
  exact file_props_of_mem_resolveItem fs item p (hitem ▸ hp)

/-! ## Helper lemmas: strings for reports and urls -/

theorem listStartsWith_append (l t : List Char) : listStartsWith (l ++ t) l = true := by
  induction l with
  | nil => cases t <;> rfl
  | cons c cs ih => simp [listStartsWith, ih]

theorem pyStartsWith_append (a b : String) : pyStartsWith (a ++ b) a = true := by
  unfold pyStartsWith
  rw [toList_append]
  exact listStartsWith_append a.toList b.toList

theorem head?_dropWhile_slash (l : List Char) :
    (l.dropWhile (· = '/')).head? ≠ some '/' := by
  induction l with
  | nil => simp
  | cons c cs ih =>
    by_cases h : c = '/'
    · simpa [List.dropWhile_cons, h] using ih
    · simp [List.dropWhile_cons, h]

theorem rstripSlashes_getLast? (s : String) :
    (rstripSlashes s).toList.getLast? ≠ some '/' := by
  unfold rstripSlashes
  have h1 : (String.mk ((s.toList.reverse.dropWhile (· = '/')).reverse)).toList
      = (s.toList.reverse.dropWhile (· = '/')).reverse := rfl
  rw [h1, List.getLast?_reverse]
  exact head?_dropWhile_slash s.toList.reverse

/-! ## Claim C1 -/

/-- Claim C1 fails on the code: when the JSON write raises, the function
returns `False` at once, so the YAML write is never attempted (here at
the concrete outcome pair jsonOk = false, yamlOk = true). -/
theorem c1_counterexample :
    (write_json_yaml false true).attempted = [WFmt.json]
    ∧ WFmt.yaml ∉ (write_json_yaml false true).attempted
    ∧ (write_json_yaml false true).ok = false := by
  decide

/-- Claim C1 (amended): writes are attempted in order JSON then YAML; a
failure of the JSON write prevents attempting the YAML write, while the
JSON write is always attempted; the sheet outcome is success exactly
when both writes succeed. -/
theorem c1_write_behavior (jsonOk yamlOk : Bool) :
    (write_json_yaml jsonOk yamlOk).ok = (jsonOk && yamlOk)
    ∧ WFmt.json ∈ (write_json_yaml jsonOk yamlOk).attempted
    ∧ (WFmt.yaml ∈ (write_json_yaml jsonOk yamlOk).attempted ↔ jsonOk = true) := by
  cases jsonOk <;> cases yamlOk <;> decide

/-! ## Claim C2 -/

/-- A run environment with a missing workbook, for claim C2. -/
def c2Env : SitemapEnv :=
  ⟨false, true, true, [], "Traceback (most recent call last): FileNotFoundError"⟩

/-- Claim C2 fails on the code for the sitemap assembler: on a missing
workbook the error and trace are appended and the report is written,
but `sys.exit(main())` with `main` returning `None` exits with status
0, not a non-zero status. -/
theorem c2_counterexample :
    topError c2Env = some TopErr.missingWorkbook
    ∧ (sitemapMain c2Env).report =
        ["ERROR: Missing client-data.xlsx at repo root.",
         "TRACEBACK:\nTraceback (most recent call last): FileNotFoundError"]
    ∧ (sitemapMain c2Env).reportWritten = true
    ∧ (sitemapMain c2Env).exitCode = 0 := by
  decide

/-- Claim C2 (amended): on any unhandled top-level error of the
client-workbook sitemap assembler, an `ERROR:` line and a `TRACEBACK:`
line are appended to the report and the partial report is still written
to its fixed path, but the process then terminates with exit status 0
(`main` returns `None`); a missing required input file to the sheet
transformer does terminate the process with the non-zero status 1. -/
theorem c2_error_boundary :
    (∀ e : SitemapEnv, topError e ≠ Option.none →
      (∃ t ∈ (sitemapMain e).report, pyStartsWith t "ERROR: " = true)
      ∧ (∃ t ∈ (sitemapMain e).report, pyStartsWith t "TRACEBACK:" = true)
      ∧ (sitemapMain e).reportWritten = true
      ∧ (sitemapMain e).exitCode = 0)
    ∧ (∀ e : XlsxEnv, e.inputExists = false → generateFilesExit e = 1) := by
  constructor
  · intro e he
    cases h : topError e with
    | none => exact absurd h he
    | some err =>
      refine ⟨⟨"ERROR: " ++ errText err, ?_, pyStartsWith_append "ERROR: " (errText err)⟩,
        ⟨"TRACEBACK:\n" ++ e.traceText, ?_, ?_⟩, ?_, ?_⟩
      · simp [sitemapMain, h]
      · simp [sitemapMain, h]
      · have h1 : ("TRACEBACK:\n" : String) = "TRACEBACK:" ++ "\n" := by decide
        rw [h1, String.append_assoc]
        exact pyStartsWith_append "TRACEBACK:" ("\n" ++ e.traceText)
      · simp [sitemapMain, h]
      · simp [sitemapMain, h]
  · intro e he
    simp [generateFilesExit, he]

/-- Witness for claim C2 at the concrete environments: a missing
workbook for the assembler and a missing input file for the sheet
transformer. -/
theorem c2_witness :
    ((∃ t ∈ (sitemapMain c2Env).report, pyStartsWith t "ERROR: " = true)
      ∧ (∃ t ∈ (sitemapMain c2Env).report, pyStartsWith t "TRACEBACK:" = true)
      ∧ (sitemapMain c2Env).reportWritten = true
      ∧ (sitemapMain c2Env).exitCode = 0)
    ∧ generateFilesExit ⟨false, true⟩ = 1 :=
  ⟨c2_error_boundary.1 c2Env (by decide), c2_error_boundary.2 ⟨false, true⟩ rfl⟩

/-! ## Claim C3 -/

/-- Claim C3 fails on the code: coercion has no `sameAs` special case
(it receives no field name at all), so the pipe-joined cell
`"a.com | b.com|c.com"` coerces to the unsplit trimmed string, and a
pipe-only cell, which the claim says coerces to null, coerces to the
string `"|"`. -/
theorem c3_counterexample :
    clean_value (some "a.com | b.com|c.com") = CleanValue.str "a.com | b.com|c.com"
    ∧ clean_value (some " | ") = CleanValue.str "|" := by
  decide

/-- Claim C3 (amended): value coercion is independent of the field name
(the code passes none) and performs no pipe-splitting: any cell whose
trimmed form is not a sentinel, not numeric and not boolean — in
particular any pipe-joined URL list — coerces to the trimmed string
itself. -/
theorem c3_no_sameas_rule (s : String)
    (h1 : pyLower (pyStrip s) ∉ sentinelStrings)
    (h2 : pyIsDigit (removeFirstDot (pyStrip s).toList) = false)
    (h3 : pyLower (pyStrip s) ∉ (["true", "yes"] : List String))
    (h4 : pyLower (pyStrip s) ∉ (["false", "no"] : List String)) :
    clean_value (some s) = CleanValue.str (pyStrip s) :=
  clean_value_fallthrough s h1 h2 h3 h4

/-- Witness for claim C3 at a concrete pipe-joined cell. -/
theorem c3_witness :
    clean_value (some "x.com|y.com") = CleanValue.str "x.com|y.com" := by
  have h := c3_no_sameas_rule "x.com|y.com" (by decide) (by decide) (by decide) (by decide)
  rw [show pyStrip "x.com|y.com" = "x.com|y.com" by decide] at h
  exact h

/-! ## Claim C4 -/

/-- Claim C4 fails on the code: the key of a row is the full coercion
of column 0, not its trimmed stringification.  The key cell `"no"` is
non-empty yet the row is skipped (its coercion `False` is falsy), and
the key cell `"5"` is stored as the integer 5, not the string `"5"`. -/
theorem c4_counterexample :
    parse_sheet_kv [[some "no", some "red"]] = []
    ∧ parse_sheet_kv [[some "5", some "x"]] =
        [(CleanValue.int 5, CleanValue.str "x")] := by
  decide

/-- Claim C4 (amended): each row needs at least 2 columns; the key of a
row is the full coercion of column 0 and exactly the rows whose coerced
key is falsy (null, False, 0, 0.0, empty string) are skipped; the value
assigned under the key is the coercion of column 1; of two surviving
rows with equal keys the later one wins, so duplicate keys
("color","red") then ("color","blue") yield the single entry
("color","blue"). -/
theorem c4_kv_semantics :
    (∀ (g : List (List Cell)) (row : List Cell), row.length < 2 →
        parse_sheet_kv (g ++ [row]) = parse_sheet_kv g)
    ∧ (∀ (g : List (List Cell)) (row : List Cell), 2 ≤ row.length →
        truthy (clean_value (row.getD 0 Option.none)) = false →
        parse_sheet_kv (g ++ [row]) = parse_sheet_kv g)
    ∧ (∀ (g : List (List Cell)) (row : List Cell), 2 ≤ row.length →
        truthy (clean_value (row.getD 0 Option.none)) = true →
        kvLookup (clean_value (row.getD 0 Option.none)) (parse_sheet_kv (g ++ [row]))
          = some (clean_value (row.getD 1 Option.none)))
    ∧ parse_sheet_kv [[some "color", some "red"], [some "color", some "blue"]]
        = [(CleanValue.str "color", CleanValue.str "blue")] := by
  refine ⟨?_, ?_, ?_, by decide⟩
  · intro g row h
    rw [parse_sheet_kv_append]
    simp [kvStep, h]
  · intro g row h2 hf
    rw [parse_sheet_kv_append]
    have hlt : ¬ row.length < 2 := by omega
    have hf2 := hf
    simp only [List.getD, List.get?_eq_getElem?] at hf2
    simp [kvStep, hlt, hf2]
  · intro g row h2 ht
    rw [parse_sheet_kv_append]
    have hlt : ¬ row.length < 2 := by omega
    have ht2 := ht
    simp only [List.getD, List.get?_eq_getElem?] at ht2
    simp [kvStep, hlt, ht2, kvLookup_kvInsert]

/-- Witness for claim C4 at concrete rows: a short row, a
sentinel-keyed row, and a surviving duplicate key. -/
theorem c4_witness :
    parse_sheet_kv ([[some "a", some "1"]] ++ [[some "x"]])
        = parse_sheet_kv [[some "a", some "1"]]
    ∧ parse_sheet_kv ([[some "a", some "1"]] ++ [[some "n/a", some "v"]])
        = parse_sheet_kv [[some "a", some "1"]]
    ∧ kvLookup (clean_value ([some "color", some "blue"].getD 0 Option.none))
        (parse_sheet_kv ([] ++ [[some "color", some "blue"]]))
        = some (clean_value ([some "color", some "blue"].getD 1 Option.none)) :=
  ⟨c4_kv_semantics.1 [[some "a", some "1"]] [some "x"] (by decide),
   c4_kv_semantics.2.1 [[some "a", some "1"]] [some "n/a", some "v"] (by decide) (by decide),
   c4_kv_semantics.2.2.1 [] [some "color", some "blue"] (by decide) (by decide)⟩

/-! ## Claim C5 -/

/-- Claim C5: for a non-missing cell, a trimmed string that
case-insensitively equals a sentinel coerces to null; a string that is
digits-only after removing at most one decimal point coerces to an
integer when no decimal point is present and to a float otherwise; and
a numeric-looking string (digits and dots only) with two or more
decimal points is returned as the trimmed string. -/
theorem c5_value_coercion (s : String) :
    (pyLower (pyStrip s) ∈ sentinelStrings → clean_value (some s) = CleanValue.none)
    ∧ (pyIsDigit (removeFirstDot (pyStrip s).toList) = true →
        ((pyStrip s).toList.contains '.' = false →
            clean_value (some s) = CleanValue.int (pyInt (pyStrip s)))
        ∧ ((pyStrip s).toList.contains '.' = true →
            clean_value (some s) = CleanValue.float (pyFloat (pyStrip s))))
    ∧ ((∀ c ∈ (pyStrip s).toList, isDigitChar c = true ∨ c = '.') →
        2 ≤ (pyStrip s).toList.count '.' →
        clean_value (some s) = CleanValue.str (pyStrip s)) := by
  refine ⟨clean_value_of_sentinel s, ?_, clean_value_of_multidot s⟩
  intro h
  have he := clean_value_of_numeric s h
  constructor
  · intro hc
    have hc2 : (pyStrip s).data.contains '.' = false := hc
    have hm : '.' ∉ (pyStrip s).data := by simpa using hc2
    rw [he]
    simp [hm]
  · intro hc
    have hc2 : (pyStrip s).data.contains '.' = true := hc
    have hm : '.' ∈ (pyStrip s).data := by simpa using hc2
    rw [he]
    simp [hm]

/-- Witness for claim C5 at concrete cells exercising the sentinel,
integer, float and multi-dot branches. -/
theorem c5_witness :
    clean_value (some " N/A ") = CleanValue.none
    ∧ clean_value (some "42") = CleanValue.int (pyInt (pyStrip "42"))
    ∧ clean_value (some "9.99") = CleanValue.float (pyFloat (pyStrip "9.99"))
    ∧ clean_value (some "1.2.3") = CleanValue.str (pyStrip "1.2.3") :=
  ⟨(c5_value_coercion " N/A ").1 (by decide),
   ((c5_value_coercion "42").2.1 (by decide)).1 (by decide),
   ((c5_value_coercion "9.99").2.1 (by decide)).2 (by decide),
   (c5_value_coercion "1.2.3").2.2 (by decide) (by decide)⟩

/-! ## Claim C6 -/

/-- Claim C6: in list mode, row 0 gives the field names, each later row
yields a candidate record kept in row order, records with zero assigned
fields are dropped, every stored value is non-null, and the concrete
header ["Name","Price"] with rows ["Widget","9.99"] and an empty row
produces exactly one record. -/
theorem c6_list_mode :
    (∀ (headRow : List Cell) (rest : List (List Cell)),
        parse_sheet_list (headRow :: rest) =
          (rest.map (buildRecord (headRow.map headerName))).filter (fun r => !r.isEmpty))
    ∧ (∀ (g : List (List Cell)) (r : RecordL), r ∈ parse_sheet_list g → r.isEmpty = false)
    ∧ (∀ (g : List (List Cell)) (r : RecordL) (x : String × CleanValue),
        r ∈ parse_sheet_list g → x ∈ r → x.2 ≠ CleanValue.none)
    ∧ parse_sheet_list
        [[some "Name", some "Price"], [some "Widget", some "9.99"], [some "", some ""]] =
      [[("Name", CleanValue.str "Widget"), ("Price", CleanValue.float ⟨9, 99, 2⟩)]] := by
  refine ⟨parse_sheet_list_eq, ?_, ?_, by decide⟩
  · intro g r hr
    cases g with
    | nil => simp [parse_sheet_list] at hr
    | cons headRow rest =>
      rw [parse_sheet_list_eq] at hr
      have h2 := (List.mem_filter.mp hr).2
      simpa using h2
  · intro g r x hr hx
    cases g with
    | nil => simp [parse_sheet_list] at hr
    | cons headRow rest =>
      rw [parse_sheet_list_eq] at hr
      have h1 := (List.mem_filter.mp hr).1
      rcases List.mem_map.mp h1 with ⟨row, _, hrow⟩
      exact mem_buildRecord_ne_none _ row x (hrow ▸ hx)

/-- Witness for claim C6 at a concrete one-column sheet. -/
theorem c6_witness :
    parse_sheet_list [[some "Name"], [some "Widget"]] =
      ([[some "Widget"]].map (buildRecord ([some "Name"].map headerName))).filter
        (fun r => !r.isEmpty)
    ∧ ([("Name", CleanValue.str "Widget")] : RecordL).isEmpty = false
    ∧ ("Name", CleanValue.str "Widget").2 ≠ CleanValue.none :=
  ⟨c6_list_mode.1 [some "Name"] [[some "Widget"]],
   c6_list_mode.2.1 [[some "Name"], [some "Widget"]]
     [("Name", CleanValue.str "Widget")] (by decide),
   c6_list_mode.2.2.1 [[some "Name"], [some "Widget"]]
     [("Name", CleanValue.str "Widget")] ("Name", CleanValue.str "Widget")
     (by decide) (by decide)⟩

/-! ## Claim C7 -/

/-- Claim C7: every entry of a client row location index references a
path that, in the assembly-time filesystem snapshot, exists, is a
regular file, and has non-zero size. -/
theorem c7_entries_are_nonempty_files (fs : FS) (paths : List String) (p : String)
    (h : p ∈ rowEntries fs paths) :
    fs.pathExists p = true ∧ fs.isFile p = true ∧ 0 < fs.fileSize p :=
  file_props_of_mem_rowEntries fs paths p h

/-- Witness for claim C7: the bare filename "store.json" resolves under
the default folder to an existing non-empty file. -/
theorem c7_witness :
    "locations/store.json" ∈ rowEntries fsStore ["store.json"]
    ∧ (fsStore.pathExists "locations/store.json" = true
        ∧ fsStore.isFile "locations/store.json" = true
        ∧ 0 < fsStore.fileSize "locations/store.json") :=
  ⟨by decide,
   c7_entries_are_nonempty_files fsStore ["store.json"] "locations/store.json" (by decide)⟩

/-! ## Claim C8 -/

/-- Claim C8: an empty (trimmed) domain is skipped; a non-empty domain
without a scheme gets `https://` and trailing slashes stripped; the
normalized domain never ends in a slash; an accepted domain is never a
placeholder; `"www.example.com/path"` is rejected as an embedded
placeholder and `"acme.io"` normalizes to `"https://acme.io"`. -/
theorem c8_domain_normalization :
    (∀ raw : String, pyStrip raw = "" → domainStep raw = DomainOutcome.skippedEmpty)
    ∧ (∀ u : String, pyStrip u ≠ "" →
        pyStartsWith (pyStrip u) "http://" = false →
        pyStartsWith (pyStrip u) "https://" = false →
        ensure_scheme u = rstripSlashes ("https://" ++ pyStrip u))
    ∧ (∀ u : String, (ensure_scheme u).toList.getLast? ≠ some '/')
    ∧ (∀ raw d : String, domainStep raw = DomainOutcome.ok d →
        is_placeholder_domain d = false)
    ∧ domainStep "www.example.com/path" =
        DomainOutcome.rejectedPlaceholder "https://www.example.com/path"
    ∧ domainStep "acme.io" = DomainOutcome.ok "https://acme.io" := by
  refine ⟨?_, ?_, ?_, ?_, by decide, by decide⟩
  · intro raw h
    have he : ("" : String).isEmpty = true := by decide
    simp [domainStep, h, he]
  · intro u hne h1 h2
    have hie : (pyStrip u).isEmpty = false := by
      cases hi : (pyStrip u).isEmpty
      · rfl
      · exact absurd ((String.isEmpty_iff (pyStrip u)).mp hi) hne
    simp [ensure_scheme, hie, h1, h2]
  · intro u
    by_cases h : (pyStrip u).isEmpty = true
    · have h0 : pyStrip u = "" := (String.isEmpty_iff (pyStrip u)).mp h
      have he : ("" : String).isEmpty = true := by decide
      simp [ensure_scheme, h, h0, he]
    · simp only [ensure_scheme, h, if_false]
      exact rstripSlashes_getLast? _
  · intro raw d h
    by_cases h1 : (pyStrip raw).isEmpty = true ∨ pyLower (pyStrip raw) = "nan"
    · simp [domainStep, h1] at h
    · by_cases h2 : is_placeholder_domain (ensure_scheme (pyStrip raw)) = true
      · simp [domainStep, h1, h2] at h
      · simp only [domainStep, h1, h2, if_false] at h
        have hd : ensure_scheme (pyStrip raw) = d := by
          cases h
          rfl
        rw [← hd]
        exact Bool.eq_false_iff.mpr h2

/-- Witness for claim C8 at concrete domains. -/
theorem c8_witness :
    domainStep "  " = DomainOutcome.skippedEmpty
    ∧ ensure_scheme " acme.io/ " = rstripSlashes ("https://" ++ pyStrip " acme.io/ ")
    ∧ (ensure_scheme "https://acme.io///").toList.getLast? ≠ some '/'
    ∧ is_placeholder_domain "https://acme.io" = false :=
  ⟨c8_domain_normalization.1 "  " (by decide),
   c8_domain_normalization.2.1 " acme.io/ " (by decide) (by decide) (by decide),
   c8_domain_normalization.2.2.1 "https://acme.io///",
   c8_domain_normalization.2.2.2.1 "acme.io" "https://acme.io" (by decide)⟩

/-! ## Claim C9 -/

/-- Claim C9: resolved files are deduplicated by normalized path with
first-seen order preserved — the deduplicated list holds exactly one
entry per listed path and is a sublist of the resolved list, and a
candidate list in which the same file resolves twice yields exactly one
location-index entry. -/
theorem c9_dedup :
    (∀ (l : List String) (p : String), p ∈ l → (dedupPaths l).count p = 1)
    ∧ (∀ l : List String, List.Sublist (dedupPaths l) l)
    ∧ rowEntries fsStore ["store.json", "store.json"] = ["locations/store.json"] := by
  refine ⟨?_, dedupPaths_sublist, by decide⟩
  intro l p hp
  exact List.count_eq_one_of_mem (dedupPaths_nodup l) (mem_dedupPaths l p hp)

/-- Witness for claim C9 at a concrete duplicated path list. -/
theorem c9_witness :
    (dedupPaths ["a.json", "b.yaml", "a.json"]).count "a.json" = 1 :=
  c9_dedup.1 ["a.json", "b.yaml", "a.json"] "a.json" (by decide)

/-! ## Claim C10 -/

/-- Claim C10: in list mode, what a record stores under a header name
is the rightmost non-null coercion among the columns carrying that
name: a later duplicate column with a non-null value overwrites an
earlier one, while a later duplicate column coercing to null leaves the
earlier value in place. -/
theorem c10_duplicate_headers :
    (∀ (headers : List String) (row : List Cell) (n : String),
        recLookup n (buildRecord headers row) = lastNonNull n (headers.zip row))
    ∧ buildRecord ["a", "a"] [some "1", some "2"] = [("a", CleanValue.int 2)]
    ∧ buildRecord ["a", "a"] [some "1", some "n/a"] = [("a", CleanValue.int 1)] :=
  ⟨recLookup_buildRecord, by decide, by decide⟩

example : clean_value (some " N/A ") = CleanValue.none := by decide
example : clean_value (some "42") = CleanValue.int 42 := by decide
example : clean_value (some "9.99") = CleanValue.float ⟨9, 99, 2⟩ := by decide
example : clean_value (some "1.2.3") = CleanValue.str "1.2.3" := by decide
example : clean_value (some "Yes") = CleanValue.bool true := by decide
example : clean_value (some "a.com | b.com|c.com") = CleanValue.str "a.com | b.com|c.com" := by decide
example : clean_value (some " | ") = CleanValue.str "|" := by decide
example : clean_value (some "0") = CleanValue.int 0 := by decide

example :
    parse_sheet_list
      [[some "Name", some "Price"], [some "Widget", some "9.99"], [some "", some ""]] =
    [[("Name", CleanValue.str "Widget"), ("Price", CleanValue.float ⟨9, 99, 2⟩)]] := by decide
example : parse_sheet_kv [[some "color", some "red"], [some "color", some "blue"]] =
    [(CleanValue.str "color", CleanValue.str "blue")] := by decide
example : parse_sheet_kv [[some "no", some "red"]] = [] := by decide
example : parse_sheet_kv [[some "5", some "x"]] =
    [(CleanValue.int 5, CleanValue.str "x")] := by decide
example : buildRecord ["a", "a"] [some "1", some "2"] = [("a", CleanValue.int 2)] := by decide
example : buildRecord ["a", "a"] [some "1", some "n/a"] = [("a", CleanValue.int 1)] := by decide

end Linework
